import Mathlib

/-!
Shallow embedding of the comments subsystem of `news_aggregator`
(`src/news_aggregator/models.py`, `src/news_aggregator/views.py`).

Modelling conventions:
* Django model rows become Lean structures; the database becomes explicit
  association lists inside a `Store`, threaded through each endpoint.
* Timestamps are abstract `Nat` clock ticks (`auto_now` fields receive the
  `now` argument of the operation that saves them).
* Python strings are Lean `String`s over their character lists; the helpers
  `pyStrip`, `pyLower`, `pyIntOfStr` model the CPython behaviour of
  `str.strip()`, `str.lower()` and `int()` on ASCII input.
* JSON values returned by `json.loads` (no floats; the bodies analysed here
  contain none) are the inductive `JVal`, which also serves as the value type
  of the serialized output dictionaries.
-/

namespace NewsAgg

/-- JSON-ish value: the payload type of `json.loads` results and of the
dictionaries built by `_serialize_comment` (views.py). -/
inductive JVal where
  | null : JVal
  | jb (b : Bool) : JVal
  | ji (n : Int) : JVal
  | js (s : String) : JVal
  | ja (xs : List JVal) : JVal
  | jo (fs : List (String × JVal)) : JVal
deriving Repr

-- Decidable equality for `JVal` (the nested inductive defeats the
-- deriving handler).
mutual
/-- Decidable equality on `JVal`. -/
def JVal.decEq : (a b : JVal) → Decidable (a = b)
  | .null, .null => .isTrue rfl
  | .jb a, .jb b =>
    if h : a = b then .isTrue (by rw [h]) else .isFalse (by simp [h])
  | .ji a, .ji b =>
    if h : a = b then .isTrue (by rw [h]) else .isFalse (by simp [h])
  | .js a, .js b =>
    if h : a = b then .isTrue (by rw [h]) else .isFalse (by simp [h])
  | .ja xs, .ja ys =>
    match JVal.decEqList xs ys with
    | .isTrue h => .isTrue (by rw [h])
    | .isFalse h => .isFalse (by simp [h])
  | .jo xs, .jo ys =>
    match JVal.decEqObj xs ys with
    | .isTrue h => .isTrue (by rw [h])
    | .isFalse h => .isFalse (by simp [h])
  | .null, .jb _ => .isFalse (fun h => JVal.noConfusion h)
  | .null, .ji _ => .isFalse (fun h => JVal.noConfusion h)
  | .null, .js _ => .isFalse (fun h => JVal.noConfusion h)
  | .null, .ja _ => .isFalse (fun h => JVal.noConfusion h)
  | .null, .jo _ => .isFalse (fun h => JVal.noConfusion h)
  | .jb _, .null => .isFalse (fun h => JVal.noConfusion h)
  | .jb _, .ji _ => .isFalse (fun h => JVal.noConfusion h)
  | .jb _, .js _ => .isFalse (fun h => JVal.noConfusion h)
  | .jb _, .ja _ => .isFalse (fun h => JVal.noConfusion h)
  | .jb _, .jo _ => .isFalse (fun h => JVal.noConfusion h)
  | .ji _, .null => .isFalse (fun h => JVal.noConfusion h)
  | .ji _, .jb _ => .isFalse (fun h => JVal.noConfusion h)
  | .ji _, .js _ => .isFalse (fun h => JVal.noConfusion h)
  | .ji _, .ja _ => .isFalse (fun h => JVal.noConfusion h)
  | .ji _, .jo _ => .isFalse (fun h => JVal.noConfusion h)
  | .js _, .null => .isFalse (fun h => JVal.noConfusion h)
  | .js _, .jb _ => .isFalse (fun h => JVal.noConfusion h)
  | .js _, .ji _ => .isFalse (fun h => JVal.noConfusion h)
  | .js _, .ja _ => .isFalse (fun h => JVal.noConfusion h)
  | .js _, .jo _ => .isFalse (fun h => JVal.noConfusion h)
  | .ja _, .null => .isFalse (fun h => JVal.noConfusion h)
  | .ja _, .jb _ => .isFalse (fun h => JVal.noConfusion h)
  | .ja _, .ji _ => .isFalse (fun h => JVal.noConfusion h)
  | .ja _, .js _ => .isFalse (fun h => JVal.noConfusion h)
  | .ja _, .jo _ => .isFalse (fun h => JVal.noConfusion h)
  | .jo _, .null => .isFalse (fun h => JVal.noConfusion h)
  | .jo _, .jb _ => .isFalse (fun h => JVal.noConfusion h)
  | .jo _, .ji _ => .isFalse (fun h => JVal.noConfusion h)
  | .jo _, .js _ => .isFalse (fun h => JVal.noConfusion h)
  | .jo _, .ja _ => .isFalse (fun h => JVal.noConfusion h)

def JVal.decEqList : (xs ys : List JVal) → Decidable (xs = ys)
  | [], [] => .isTrue rfl
  | x :: xs, y :: ys =>
    match JVal.decEq x y, JVal.decEqList xs ys with
    | .isTrue h1, .isTrue h2 => .isTrue (by rw [h1, h2])
    | .isFalse h1, _ => .isFalse (by simp [h1])
    | _, .isFalse h2 => .isFalse (by simp [h2])
  | [], _ :: _ => .isFalse (fun h => List.noConfusion h)
  | _ :: _, [] => .isFalse (fun h => List.noConfusion h)

def JVal.decEqObj : (xs ys : List (String × JVal)) → Decidable (xs = ys)
  | [], [] => .isTrue rfl
  | (k, v) :: xs, (l, w) :: ys =>
    match String.decEq k l, JVal.decEq v w, JVal.decEqObj xs ys with
    | .isTrue h0, .isTrue h1, .isTrue h2 => .isTrue (by rw [h0, h1, h2])
    | .isFalse h0, _, _ => .isFalse (by simp [h0])
    | _, .isFalse h1, _ => .isFalse (by simp [h1])
    | _, _, .isFalse h2 => .isFalse (by simp [h2])
  | [], _ :: _ => .isFalse (fun h => List.noConfusion h)
  | _ :: _, [] => .isFalse (fun h => List.noConfusion h)
end

instance : DecidableEq JVal := JVal.decEq

/-- A row of the `Comment` model (models.py, class `Comment`).
`created_at`/`updated_at`/`edited_at` are abstract clock ticks. -/
structure Comment where
  id : Nat
  article_id : Nat
  user_id : Nat
  parent_id : Option Nat
  content : String
  created_at : Nat
  updated_at : Nat
  depth : Nat
  is_edited : Bool
  edited_at : Option Nat
  is_removed_moderator : Bool
  is_deleted_by_user : Bool
  is_approved : Bool
  cached_score : Int
deriving Repr, DecidableEq

/-- `Comment.MAX_DEPTH` (models.py): display-only cap. -/
def commentMaxDepth : Nat := 5

/-- A user row, as far as the comment endpoints read it
(`id`, `username`, `is_staff`). -/
structure UserRow where
  id : Nat
  username : String
  is_staff : Bool
deriving Repr, DecidableEq

/-- The requesting user (`request.user`). -/
structure Viewer where
  is_authenticated : Bool
  id : Nat
  is_staff : Bool
deriving Repr, DecidableEq

/-- The persistent store visible to the comment endpoints: `Comment` rows,
`CommentVote` rows keyed by `(comment_id, user_id)` (unique_together), and
user rows. -/
structure Store where
  comments : List Comment
  votes : List ((Nat × Nat) × Int)
  users : List UserRow
deriving Repr, DecidableEq

/-- `Comment.objects.get(pk=cid)` / `get_object_or_404`: first row with the
given primary key. -/
def findComment (st : Store) (cid : Nat) : Option Comment :=
  st.comments.find? (fun c => c.id = cid)

/-- Look up a user row by id. -/
def findUser (st : Store) (uid : Nat) : Option UserRow :=
  st.users.find? (fun u => u.id = uid)

/-- `CommentVote.objects.filter(user=..., comment_id=...)`: the viewer's vote
value on a comment, if a row exists. -/
def voteLookup (votes : List ((Nat × Nat) × Int)) (cid uid : Nat) : Option Int :=
  (votes.find? (fun kv => kv.1 = (cid, uid))).map (·.2)

/-- Replace the value of an existing vote row in place
(`vote.save(update_fields=['value', 'updated_at'])`). -/
def voteUpdate (votes : List ((Nat × Nat) × Int)) (cid uid : Nat) (v : Int) :
    List ((Nat × Nat) × Int) :=
  votes.map (fun kv => if kv.1 = (cid, uid) then (kv.1, v) else kv)

/-- Delete the vote row with the given key (`vote.delete()`). -/
def voteDelete (votes : List ((Nat × Nat) × Int)) (cid uid : Nat) :
    List ((Nat × Nat) × Int) :=
  votes.filter (fun kv => ¬ kv.1 = (cid, uid))

/-- Apply an update to the comment row(s) with the given id, leaving all
other rows untouched. -/
def updateComment (st : Store) (cid : Nat) (f : Comment → Comment) : Store :=
  { st with comments := st.comments.map (fun c => if c.id = cid then f c else c) }

/-- CPython `str.strip()` whitespace set, restricted to ASCII. -/
def isPySpace (c : Char) : Bool :=
  c = ' ' ∨ c = '\t' ∨ c = '\n' ∨ c = '\x0d' ∨ c = '\x0b' ∨ c = '\x0c'

/-- `str.strip()`: drop leading and trailing whitespace. -/
def pyStrip (s : String) : String :=
  ⟨((s.data.dropWhile isPySpace).reverse.dropWhile isPySpace).reverse⟩

/-- `str.lower()` on ASCII letters. -/
def pyLower (s : String) : String :=
  ⟨s.data.map (fun c =>
    if 'A' ≤ c ∧ c ≤ 'Z' then Char.ofNat (c.toNat + 32) else c)⟩

/-- `str(x)` for the optional `remove` POST parameter: `str(None) = "None"`. -/
def pyStrOfOpt : Option String → String
  | none => "None"
  | some s => s

section Serializer

/-- `MAX_COMMENT_LENGTH` (views.py). -/
def MAX_COMMENT_LENGTH : Nat := 5000

/-- `_serialize_comment(request, c)` (views.py): the dictionary the comment
endpoints return for one comment, field for field and in the source's order.
Timestamp fields are emitted as integer ticks rather than ISO strings.
The viewer's vote is looked up in the vote table: the source's two paths
(the prefetched `request._comment_user_votes` map built from
`CommentVote.objects.filter`, and the fallback single `CommentVote` lookup)
compute that same value. -/
def serializeComment (st : Store) (viewer : Viewer) (c : Comment) :
    List (String × JVal) :=
  let is_owner : Bool := viewer.is_authenticated ∧ c.user_id = viewer.id
  let content : String :=
    if c.is_deleted_by_user then "[deleted]"
    else if c.is_removed_moderator then "[removed by moderator]"
    else pyStrip c.content
  let user_vote : Int :=
    if viewer.is_authenticated then
      (voteLookup st.votes c.id viewer.id).getD 0
    else 0
  let parent_username : JVal :=
    match c.parent_id with
    | none => .null
    | some pid =>
      match findComment st pid with
      | none => .null
      | some p =>
        match findUser st p.user_id with
        | none => .null
        | some u => .js u.username
  [ ("id", .ji c.id),
    ("article_id", .ji c.article_id),
    ("user", .jo [("id", .ji c.user_id),
                  ("username", .js (((findUser st c.user_id).map
                      (fun u => u.username)).getD ""))]),
    ("parent_id", match c.parent_id with | none => .null | some p => .ji p),
    ("parent_username", parent_username),
    ("content", .js content),
    ("created_at", .ji c.created_at),
    ("updated_at", .ji c.updated_at),
    ("edited_at", match c.edited_at with | none => .null | some t => .ji t),
    ("is_edited", .jb c.is_edited),
    ("is_removed_moderator", .jb c.is_removed_moderator),
    ("is_deleted_by_user", .jb c.is_deleted_by_user),
    ("is_approved", .jb c.is_approved),
    ("score", .ji c.cached_score),
    ("user_vote", .ji user_vote),
    ("depth", .ji c.depth),
    ("can_edit", .jb (is_owner ∧ ¬ c.is_removed_moderator)),
    ("can_delete", .jb is_owner),
    ("can_moderate", .jb (if viewer.is_authenticated then viewer.is_staff else false)) ]

/-- Dictionary field lookup on a serialized comment. -/
def getField (fs : List (String × JVal)) (k : String) : Option JVal :=
  (fs.find? (fun kv => kv.1 = k)).map (·.2)

end Serializer

section PyConv

/-- Value of a nonempty all-digit run. -/
def digitsVal (cs : List Char) : Nat :=
  cs.foldl (fun acc c => acc * 10 + (c.toNat - '0'.toNat)) 0

/-- CPython `int(str)` digit part: underscores may appear only singly and
strictly between digits (`int("1_0") = 10`, `int("1__0")`, `int("_1")`,
`int("1_")` all raise). Splitting on `'_'` must give nonempty all-digit runs. -/
def intDigits (cs : List Char) : Option Nat :=
  let runs := cs.splitOn '_'
  if cs ≠ [] ∧ runs.all (fun r => r ≠ [] ∧ r.all Char.isDigit) then
    some (digitsVal (cs.filter (fun c => c ≠ '_')))
  else none

/-- CPython `int(s)` on an ASCII string: strip whitespace, optional sign,
decimal digits with underscore grouping; anything else raises `ValueError`
(modelled as `none`). -/
def pyIntOfStr (s : String) : Option Int :=
  match (pyStrip s).data with
  | '+' :: rest => (intDigits rest).map (fun n => (n : Int))
  | '-' :: rest => (intDigits rest).map (fun n => -(n : Int))
  | rest => (intDigits rest).map (fun n => (n : Int))

/-- CPython `int(x)` on the values `parse_value` can hand back: strings parse
as decimal integers, `True`/`False` convert to 1/0, integers are themselves,
and `None`, lists and dicts raise `TypeError` (modelled as `none`). -/
def pyIntOfJVal : JVal → Option Int
  | .js s => pyIntOfStr s
  | .jb b => some (if b then 1 else 0)
  | .ji n => some n
  | .null => none
  | .ja _ => none
  | .jo _ => none

end PyConv

section BodyParsing

/-- `urllib.parse.unquote_plus` on ASCII input: `+` becomes a space, `%XX`
with two hex digits decodes to that byte, a malformed `%` is kept verbatim. -/
def unquotePlusAux : List Char → List Char
  | [] => []
  | '+' :: rest => ' ' :: unquotePlusAux rest
  | '%' :: a :: b :: rest =>
    if isHex a ∧ isHex b then
      Char.ofNat (16 * hexVal a + hexVal b) :: unquotePlusAux rest
    else '%' :: unquotePlusAux (a :: b :: rest)
  | c :: rest => c :: unquotePlusAux rest
where
  isHex (c : Char) : Bool :=
    c.isDigit ∨ ('a' ≤ c ∧ c ≤ 'f') ∨ ('A' ≤ c ∧ c ≤ 'F')
  hexVal (c : Char) : Nat :=
    if c.isDigit then c.toNat - '0'.toNat
    else if 'a' ≤ c ∧ c ≤ 'f' then c.toNat - 'a'.toNat + 10
    else if 'A' ≤ c ∧ c ≤ 'F' then c.toNat - 'A'.toNat + 10
    else 0

/-- `urllib.parse.unquote_plus` on a string. -/
def unquotePlus (s : String) : String := ⟨unquotePlusAux s.data⟩

/-- `query.split('&')` over character lists (`''.split` keeps empty fields). -/
def splitAmp : List Char → List (List Char)
  | [] => [[]]
  | c :: rest =>
    let r := splitAmp rest
    if c = '&' then [] :: r
    else
      match r with
      | [] => [[c]]
      | g :: gs => (c :: g) :: gs

/-- One `name=value` pair of `urllib.parse.parse_qs` with default options:
a field without `=` or with an empty value is dropped
(`keep_blank_values=False`); name and value are percent-decoded. -/
def parseQsPair (field : List Char) : Option (String × String) :=
  let nameCs := field.takeWhile (fun c => c ≠ '=')
  let rest := field.drop nameCs.length
  match rest with
  | [] => none
  | _ :: valueCs =>
    if valueCs = [] then none
    else some (unquotePlus ⟨nameCs⟩, unquotePlus ⟨valueCs⟩)

/-- `parse_qs(body)['value'][0]` guarded by
`if 'value' in parsed and parsed['value']` (views.py `parse_value`):
the first percent-decoded value whose decoded name is `"value"`. -/
def parseQsValue (body : String) : Option String :=
  ((splitAmp body.data).filterMap parseQsPair).lookup "value"

/-- Skip JSON whitespace. -/
def jsonWs (cs : List Char) : List Char :=
  cs.dropWhile (fun c => c = ' ' ∨ c = '\t' ∨ c = '\n' ∨ c = '\x0d')

/-- JSON string body after the opening quote: plain ASCII characters and the
single-character escapes. `\u` escapes and control characters make the parse
fail (a subset of `json.loads`, enough for the bodies analysed here). -/
def jsonString : List Char → Option (String × List Char)
  | cs => (go cs).map (fun p => (⟨p.1⟩, p.2))
where
  go : List Char → Option (List Char × List Char)
    | [] => none
    | '"' :: rest => some ([], rest)
    | '\\' :: e :: rest =>
      let dec : Option Char :=
        if e = '"' then some '"'
        else if e = '\\' then some '\\'
        else if e = '/' then some '/'
        else if e = 'b' then some '\x08'
        else if e = 'f' then some '\x0c'
        else if e = 'n' then some '\n'
        else if e = 'r' then some '\x0d'
        else if e = 't' then some '\t'
        else none
      match dec with
      | none => none
      | some c => (go rest).map (fun p => (c :: p.1, p.2))
    | c :: rest =>
      if c.toNat < 32 then none
      else (go rest).map (fun p => (c :: p.1, p.2))

/-- JSON integer literal: optional minus, then either `0` or a nonzero digit
followed by digits; a following `.`, `e` or `E` (a float) fails the parse
(floats are outside this model). -/
def jsonInt (cs : List Char) : Option (Int × List Char) :=
  match cs with
  | '-' :: rest => (go rest).map (fun p => (-(p.1 : Int), p.2))
  | rest => (go rest).map (fun p => ((p.1 : Int), p.2))
where
  go (cs : List Char) : Option (Nat × List Char) :=
    let ds := cs.takeWhile Char.isDigit
    let rest := cs.drop ds.length
    match ds with
    | [] => none
    | ['0'] =>
      if rest.head? = some '.' ∨ rest.head? = some 'e' ∨ rest.head? = some 'E'
      then none else some (0, rest)
    | d :: _ =>
      if d = '0' then none
      else if rest.head? = some '.' ∨ rest.head? = some 'e' ∨ rest.head? = some 'E'
      then none else some (digitsVal ds, rest)

mutual
/-- Fuel-indexed recursive-descent JSON value parser (models `json.loads`
for the no-float subset). -/
def jsonVal (fuel : Nat) (cs : List Char) : Option (JVal × List Char) :=
  match fuel with
  | 0 => none
  | fuel + 1 =>
    match jsonWs cs with
    | 'n' :: 'u' :: 'l' :: 'l' :: rest => some (.null, rest)
    | 't' :: 'r' :: 'u' :: 'e' :: rest => some (.jb true, rest)
    | 'f' :: 'a' :: 'l' :: 's' :: 'e' :: rest => some (.jb false, rest)
    | '"' :: rest => (jsonString rest).map (fun p => (.js p.1, p.2))
    | '[' :: rest =>
      (match jsonWs rest with
       | ']' :: rest2 => some (.ja [], rest2)
       | _ => (jsonItems fuel rest).map (fun p => (.ja p.1, p.2)))
    | '{' :: rest =>
      (match jsonWs rest with
       | '}' :: rest2 => some (.jo [], rest2)
       | _ => (jsonMembers fuel rest).map (fun p => (.jo p.1, p.2)))
    | rest => (jsonInt rest).map (fun p => (.ji p.1, p.2))

/-- Comma-separated JSON array items, ending at `]`. -/
def jsonItems (fuel : Nat) (cs : List Char) : Option (List JVal × List Char) :=
  match fuel with
  | 0 => none
  | fuel + 1 =>
    match jsonVal fuel cs with
    | none => none
    | some (v, rest) =>
      match jsonWs rest with
      | ']' :: rest2 => some ([v], rest2)
      | ',' :: rest2 =>
        (jsonItems fuel rest2).map (fun p => (v :: p.1, p.2))
      | _ => none

/-- Comma-separated JSON object members, ending at `}`. -/
def jsonMembers (fuel : Nat) (cs : List Char) :
    Option (List (String × JVal) × List Char) :=
  match fuel with
  | 0 => none
  | fuel + 1 =>
    match jsonWs cs with
    | '"' :: rest =>
      match jsonString rest with
      | none => none
      | some (k, rest2) =>
        match jsonWs rest2 with
        | ':' :: rest3 =>
          match jsonVal fuel rest3 with
          | none => none
          | some (v, rest4) =>
            match jsonWs rest4 with
            | '}' :: rest5 => some ([(k, v)], rest5)
            | ',' :: rest5 =>
              (jsonMembers fuel rest5).map (fun p => ((k, v) :: p.1, p.2))
            | _ => none
        | _ => none
    | _ => none
end

/-- `json.loads(body)`: parse one value and require only whitespace after it. -/
def jsonLoads (body : String) : Option JVal :=
  match jsonVal (body.length + 1) body.data with
  | some (v, rest) => if jsonWs rest = [] then some v else none
  | none => none

/-- The regex fallback `re.search(r'value[^-0-9]*(-?1)', body)` of
`parse_value` (views.py): scan for a literal `value`, skip characters outside
`[-0-9]`, then capture an optional minus followed by `1`. The character
class is disjoint from `-?1`, so maximal munch is exact. -/
def regexValueSearch : List Char → Option String
  | [] => none
  | c :: rest =>
    match tryAt (c :: rest) with
    | some r => some r
    | none => regexValueSearch rest
where
  tryAt (cs : List Char) : Option String :=
    match cs with
    | 'v' :: 'a' :: 'l' :: 'u' :: 'e' :: rest =>
      match rest.dropWhile (fun c => ¬(c = '-' ∨ c.isDigit)) with
      | '-' :: '1' :: _ => some "-1"
      | '1' :: _ => some "1"
      | _ => none
    | _ => none

/-- The carriers of a vote request: `request.POST['value']`,
`request.GET['value']`, and the raw body. -/
structure VoteReq where
  post_value : Option String
  get_value : Option String
  body : String
deriving Repr, DecidableEq

/-- `parse_value()` (views.py, inside `comment_vote`): form field, then query
parameter, then — for a nonempty body — urlencoded `parse_qs`, then
`json.loads` when it yields a dict containing `"value"`, then the regex
fallback. Returns the raw value to be fed to `int()`. -/
def parse_value (req : VoteReq) : Option JVal :=
  match req.post_value with
  | some s => some (.js s)
  | none =>
  match req.get_value with
  | some s => some (.js s)
  | none =>
  if req.body = "" then none
  else
    match parseQsValue req.body with
    | some s => some (.js s)
    | none =>
      match jsonLoads req.body with
      | some (.jo fs) =>
        -- Python dicts keep the LAST of duplicate JSON keys.
        match fs.reverse.lookup "value" with
        | some v => some v
        | none => (regexValueSearch req.body.data).map (fun s => .js s)
      | _ => (regexValueSearch req.body.data).map (fun s => .js s)

end BodyParsing

section Endpoints

/-- Result of a JSON endpoint: an error with its HTTP status, or the
`{ success, score, user_vote }` payload of the vote endpoint. -/
inductive VoteResp where
  | err (status : Nat) (msg : String) : VoteResp
  | ok (score : Int) (user_vote : Int) : VoteResp
deriving Repr, DecidableEq

/-- The body of `comment_vote`'s POST/PUT branch (views.py) after `new_val`
is fixed: `get_or_create` on the `(comment, user)` unique key, the repeat
no-op, the in-place row update, the conditional
`F('cached_score') + delta` update and the `refresh_from_db` re-read,
modelled step for step. -/
def voteApply (st : Store) (uid cid : Nat) (new_val : Int) :
    VoteResp × Store :=
  let (delta, current_user_vote, votes') :
      Int × Int × List ((Nat × Nat) × Int) :=
    match voteLookup st.votes cid uid with
    | none => (new_val, new_val, ((cid, uid), new_val) :: st.votes)
    | some old =>
      if old = new_val then (0, old, st.votes)
      else (new_val - old, new_val, voteUpdate st.votes cid uid new_val)
  let st' : Store :=
    if delta = 0 then { st with votes := votes' }
    else updateComment { st with votes := votes' } cid
           (fun c => { c with cached_score := c.cached_score + delta })
  let score : Int :=
    (((findComment st' cid).map (fun c => c.cached_score)).getD 0)
  (.ok score current_user_vote, st')

/-- `comment_vote` (views.py), POST/PUT branch, for an authenticated user
`uid`: `get_object_or_404`, `parse_value`, `int()` conversion, the
`{-1, 1}` check, then `voteApply`. Throttling is skipped, as the source does
under the test server. -/
def commentVotePost (st : Store) (uid cid : Nat) (req : VoteReq) :
    VoteResp × Store :=
  match findComment st cid with
  | none => (.err 404 "Not found", st)
  | some _ =>
    match (parse_value req).bind pyIntOfJVal with
    | none => (.err 400 "value must be -1 or 1", st)
    | some v =>
      if v = -1 ∨ v = 1 then voteApply st uid cid (if v > 0 then 1 else -1)
      else (.err 400 "value must be -1 or 1", st)

/-- `comment_vote` (views.py), DELETE branch: remove the user's vote row if
one exists and subtract its value from `cached_score`; otherwise answer with
the current score and change nothing. -/
def commentVoteDelete (st : Store) (uid cid : Nat) : VoteResp × Store :=
  match findComment st cid with
  | none => (.err 404 "Not found", st)
  | some c =>
    match voteLookup st.votes cid uid with
    | none => (.ok c.cached_score 0, st)
    | some prev =>
      let delta := -prev
      let st' : Store :=
        let stv := { st with votes := voteDelete st.votes cid uid }
        if delta = 0 then stv
        else updateComment stv cid
               (fun c => { c with cached_score := c.cached_score + delta })
      let score : Int :=
        (((findComment st' cid).map (fun c => c.cached_score)).getD 0)
      (.ok score 0, st')

/-- Result of the edit/delete/moderate endpoints: an error status or the
serialized comment. -/
inductive CommentResp where
  | err (status : Nat) (msg : String) : CommentResp
  | ok (comment : List (String × JVal)) : CommentResp
deriving Repr, DecidableEq

/-- `comment_edit` (views.py) for the authenticated caller `uid`:
author check (403), moderator-removal check (400), then the stripped
content re-validated (empty / over `MAX_COMMENT_LENGTH` → 400); on success
`content`, `is_edited`, `edited_at` and the `auto_now` field `updated_at`
are saved. Throttling does not apply to edits in the source. -/
def commentEdit (st : Store) (uid cid : Nat) (content_in : Option String)
    (now : Nat) : CommentResp × Store :=
  match findComment st cid with
  | none => (.err 404 "Not found", st)
  | some c =>
    if ¬ c.user_id = uid then (.err 403 "Forbidden", st)
    else if c.is_removed_moderator then
      (.err 400 "Cannot edit a moderated-removed comment", st)
    else
      let content := pyStrip (content_in.getD "")
      if content = "" then (.err 400 "Content is required", st)
      else if content.length > MAX_COMMENT_LENGTH then
        (.err 400 "Content exceeds 5000 chars", st)
      else
        let st' := updateComment st cid (fun c =>
          { c with content := content, is_edited := true,
                   edited_at := some now, updated_at := now })
        let viewer : Viewer :=
          { is_authenticated := true, id := uid, is_staff := false }
        match findComment st' cid with
        | some c' => (.ok (serializeComment st' viewer c'), st')
        | none => (.err 404 "Not found", st')

/-- `comment_delete` (views.py) for an authenticated viewer: the author or
any staff member may soft-delete; the save writes `is_deleted_by_user` and
the `auto_now` field `updated_at`, nothing else. -/
def commentDelete (st : Store) (viewer : Viewer) (cid : Nat) (now : Nat) :
    CommentResp × Store :=
  match findComment st cid with
  | none => (.err 404 "Not found", st)
  | some c =>
    if ¬ c.user_id = viewer.id ∧ ¬ viewer.is_staff then
      (.err 403 "Forbidden", st)
    else
      let st' := updateComment st cid (fun c =>
        { c with is_deleted_by_user := true, updated_at := now })
      match findComment st' cid with
      | some c' => (.ok (serializeComment st' viewer c'), st')
      | none => (.err 404 "Not found", st')

/-- `comment_moderate` (views.py), staff only
(`user_passes_test(lambda u: u.is_staff)` redirects others):
`remove_flag = str(remove).lower() in ('1', 'true', 'on', 'yes')` where
`remove = request.POST.get('remove')` (so a missing parameter stringifies to
`"None"`); the save writes `is_removed_moderator` and the `auto_now` field
`updated_at`. -/
def commentModerate (st : Store) (viewer : Viewer) (cid : Nat)
    (remove : Option String) (now : Nat) : CommentResp × Store :=
  if ¬ viewer.is_staff then (.err 302 "login redirect", st)
  else
    match findComment st cid with
    | none => (.err 404 "Not found", st)
    | some _ =>
      let remove_flag : Bool :=
        pyLower (pyStrOfOpt remove) ∈ ["1", "true", "on", "yes"]
      let st' := updateComment st cid (fun c =>
        { c with is_removed_moderator := remove_flag, updated_at := now })
      match findComment st' cid with
      | some c' => (.ok (serializeComment st' viewer c'), st')
      | none => (.err 404 "Not found", st')

/-- `Comment.save` (models.py): recompute `depth` from the parent object —
`(self.parent.depth or 0) + 1` equals `parent.depth + 1` since `depth` is a
non-null natural — and `0` for a top-level comment. -/
def commentSave (c : Comment) (parent : Option Comment) : Comment :=
  match parent with
  | some p => { c with depth := p.depth + 1 }
  | none => { c with depth := 0 }

/-- The comment row built by the POST branch of `comments_list_create`
(views.py): `Comment.objects.create(article=article, user=..., content=...)`
with model defaults, then `save` computes `depth = 0`. -/
def mkTopLevel (articleId uid : Nat) (content : String) (newId now : Nat) :
    Comment :=
  commentSave
    { id := newId, article_id := articleId, user_id := uid, parent_id := none,
      content := content, created_at := now, updated_at := now, depth := 0,
      is_edited := false, edited_at := none, is_removed_moderator := false,
      is_deleted_by_user := false, is_approved := true, cached_score := 0 }
    none

/-- The comment row built by `comment_reply` (views.py):
`Comment(article=parent.article, user=..., parent=parent, content=...)`
followed by `comment.save()`. -/
def mkReply (parent : Comment) (uid : Nat) (content : String)
    (newId now : Nat) : Comment :=
  commentSave
    { id := newId, article_id := parent.article_id, user_id := uid,
      parent_id := some parent.id, content := content, created_at := now,
      updated_at := now, depth := 0, is_edited := false, edited_at := none,
      is_removed_moderator := false, is_deleted_by_user := false,
      is_approved := true, cached_score := 0 }
    (some parent)

/-- A reply chain grown by iterating `mkReply` under the same root:
witnesses that stored depth is unbounded. -/
def replyChain (c : Comment) (uid : Nat) (content : String) (now : Nat) :
    Nat → Comment
  | 0 => c
  | n + 1 =>
    let p := replyChain c uid content now n
    mkReply p uid content (p.id + 1) now

end Endpoints

section TreeAssembler

/-- Stable insertion into a sorted list (ties cannot arise: `id` is unique
and last in the key). -/
def insertSorted (le : Comment → Comment → Bool) (c : Comment) :
    List Comment → List Comment
  | [] => [c]
  | d :: ds => if le c d then c :: d :: ds else d :: insertSorted le c ds

/-- Sort a comment list by a boolean comparison. -/
def sortComments (le : Comment → Comment → Bool) : List Comment → List Comment
  | [] => []
  | c :: cs => insertSorted le c (sortComments le cs)

/-- The descendant prefetch of the GET branch of `comments_list_create` /
the query of `comment_replies` (views.py): approved direct children of a
parent, ordered by `(-cached_score, -created_at, -id)`. -/
def childrenOf (st : Store) (pid : Nat) : List Comment :=
  sortComments
    (fun a b =>
      if a.cached_score = b.cached_score then
        if a.created_at = b.created_at then b.id ≤ a.id
        else b.created_at ≤ a.created_at
      else b.cached_score ≤ a.cached_score)
    (st.comments.filter (fun c => c.parent_id = some pid ∧ c.is_approved))

/-- `serialize_with_children(node)` (views.py): the `_serialize_comment`
dictionary with a `replies` key appended, holding the recursively serialized
children found in the prefetch map. Fuel bounds the recursion as the
prefetch loop's 20-level frontier bound does. -/
def serializeWithChildren (st : Store) (viewer : Viewer) :
    Nat → Comment → List (String × JVal)
  | 0, node => serializeComment st viewer node ++ [("replies", .ja [])]
  | fuel + 1, node =>
    serializeComment st viewer node ++
      [("replies", .ja ((childrenOf st node.id).map
          (fun ch => .jo (serializeWithChildren st viewer fuel ch))))]

end TreeAssembler

section Lemmas

/-- Updating the rows with a given id and then fetching that id returns the
updated first match, for any id-preserving update (list level). -/
theorem find_map_update (cs : List Comment) (cid : Nat) (f : Comment → Comment)
    (hid : ∀ c, (f c).id = c.id) :
    ((cs.map (fun c => if c.id = cid then f c else c)).find?
        (fun c => c.id = cid)) =
      (cs.find? (fun c => c.id = cid)).map f := by
  induction cs with
  | nil => rfl
  | cons c cs ih =>
    by_cases hc : c.id = cid
    · simp [List.find?, hc, hid]
    · simp [List.find?, hc, ih]

/-- Store-level form of `find_map_update`. -/
theorem findComment_update (st : Store) (cid : Nat) (f : Comment → Comment)
    (hid : ∀ c, (f c).id = c.id) :
    findComment (updateComment st cid f) cid = (findComment st cid).map f :=
  find_map_update st.comments cid f hid

/-- A freshly created vote row is found again. -/
theorem voteLookup_cons_self (votes : List ((Nat × Nat) × Int)) (cid uid : Nat)
    (v : Int) : voteLookup (((cid, uid), v) :: votes) cid uid = some v := by
  simp [voteLookup, List.find?]

/-- Updating a vote row in place rewrites exactly the looked-up value. -/
theorem voteLookup_update (votes : List ((Nat × Nat) × Int)) (cid uid : Nat)
    (v : Int) :
    voteLookup (voteUpdate votes cid uid v) cid uid =
      (voteLookup votes cid uid).map (fun _ => v) := by
  induction votes with
  | nil => rfl
  | cons kv rest ih =>
    show voteLookup ((if kv.1 = (cid, uid) then (kv.1, v) else kv) ::
      voteUpdate rest cid uid v) cid uid = _
    by_cases hk : kv.1 = (cid, uid)
    · simp [if_pos hk, voteLookup, List.find?_cons_of_pos, hk]
    · simp only [if_neg hk, voteLookup, List.find?] at ih ⊢
      simp only [decide_eq_false hk, Bool.false_eq_true]
      exact ih

/-- `voteUpdate` never changes the number of rows. -/
theorem voteUpdate_length (votes : List ((Nat × Nat) × Int)) (cid uid : Nat)
    (v : Int) : (voteUpdate votes cid uid v).length = votes.length :=
  List.length_map _ _

/-- After `voteDelete`, the key is gone. -/
theorem voteLookup_delete (votes : List ((Nat × Nat) × Int)) (cid uid : Nat) :
    voteLookup (voteDelete votes cid uid) cid uid = none := by
  induction votes with
  | nil => rfl
  | cons kv rest ih =>
    unfold voteDelete at ih ⊢
    rw [List.filter_cons]
    by_cases hk : kv.1 = (cid, uid)
    · simpa [hk] using ih
    · rw [if_pos (by simp [hk])]
      unfold voteLookup at ih ⊢
      rw [List.find?_cons_of_neg _ (by simp [hk])]
      exact ih

/-- After the comment fetched, the raw value parsed and converted by `int()`
to some `v ∈ {-1, 1}`, the POST/PUT branch is exactly `voteApply` at `v`. -/
theorem commentVotePost_valid (st : Store) (uid cid : Nat) (c : Comment)
    (req : VoteReq) (v : Int)
    (hf : findComment st cid = some c)
    (hconv : (parse_value req).bind pyIntOfJVal = some v)
    (hv : v = -1 ∨ v = 1) :
    commentVotePost st uid cid req = voteApply st uid cid v := by
  have hnv : (if v > 0 then (1 : Int) else -1) = v := by
    rcases hv with h | h <;> simp [h]
  simp only [commentVotePost, hf, hconv, if_pos hv, hnv]

/-- `voteApply` with no prior vote row: a row is created and the score moves
by exactly `new_val`. -/
theorem voteApply_fresh (st : Store) (uid cid : Nat) (c : Comment) (v : Int)
    (hf : findComment st cid = some c)
    (h1 : voteLookup st.votes cid uid = none)
    (hv0 : v ≠ 0) :
    voteApply st uid cid v =
      (.ok (c.cached_score + v) v,
       updateComment { st with votes := ((cid, uid), v) :: st.votes } cid
         (fun d => { d with cached_score := d.cached_score + v })) := by
  have hupd := find_map_update st.comments cid
    (fun d => { d with cached_score := d.cached_score + v }) (fun d => rfl)
  unfold findComment at hf
  rw [hf] at hupd
  simp only [voteApply, h1, if_neg hv0, updateComment, findComment, hupd]
  simp

/-- `voteApply` when the existing vote already equals `new_val`: a complete
no-op — same row, same score, same store. -/
theorem voteApply_repeat (st : Store) (uid cid : Nat) (c : Comment) (v : Int)
    (hf : findComment st cid = some c)
    (h1 : voteLookup st.votes cid uid = some v) :
    voteApply st uid cid v = (.ok c.cached_score v, st) := by
  simp [voteApply, h1, hf]

/-- `voteApply` over an opposite existing vote: the row is rewritten in place
and the score moves by `2 * new_val`. -/
theorem voteApply_switch (st : Store) (uid cid : Nat) (c : Comment) (v : Int)
    (hf : findComment st cid = some c)
    (h1 : voteLookup st.votes cid uid = some (-v))
    (hv0 : v ≠ 0) :
    voteApply st uid cid v =
      (.ok (c.cached_score + 2 * v) v,
       updateComment { st with votes := voteUpdate st.votes cid uid v } cid
         (fun d => { d with cached_score := d.cached_score + 2 * v })) := by
  have hne : ¬(-v = v) := by omega
  have h2 : v - -v = 2 * v := by ring
  have hd0 : ¬(v - -v = 0) := by omega
  have hupd := find_map_update st.comments cid
    (fun d => { d with cached_score := d.cached_score + (v - -v) }) (fun d => rfl)
  unfold findComment at hf
  rw [hf] at hupd
  simp only [voteApply, h1, if_neg hne, if_neg hd0, updateComment, findComment, hupd]
  simp [h2]

end Lemmas

section Claims

/-- C1: casting a vote with value v in {-1,+1} moves `cached_score` by
exactly v when the user had no prior vote row (a row is created), by 0 when
the existing vote already equals v (no-op on score and row), and by 2*v when
the existing vote was -v (the row is rewritten in place, not duplicated);
the response carries the post-delta `cached_score` and `user_vote = v`. -/
theorem claim_C1_vote_cast (st : Store) (uid cid : Nat) (c : Comment)
    (req : VoteReq) (v : Int)
    (hf : findComment st cid = some c)
    (hconv : (parse_value req).bind pyIntOfJVal = some v)
    (hv : v = -1 ∨ v = 1) :
    (voteLookup st.votes cid uid = none →
       (commentVotePost st uid cid req).1 = .ok (c.cached_score + v) v ∧
       findComment (commentVotePost st uid cid req).2 cid =
         some { c with cached_score := c.cached_score + v } ∧
       voteLookup (commentVotePost st uid cid req).2.votes cid uid = some v ∧
       (commentVotePost st uid cid req).2.votes.length = st.votes.length + 1) ∧
    (voteLookup st.votes cid uid = some v →
       commentVotePost st uid cid req = (.ok c.cached_score v, st)) ∧
    (voteLookup st.votes cid uid = some (-v) →
       (commentVotePost st uid cid req).1 = .ok (c.cached_score + 2 * v) v ∧
       findComment (commentVotePost st uid cid req).2 cid =
         some { c with cached_score := c.cached_score + 2 * v } ∧
       voteLookup (commentVotePost st uid cid req).2.votes cid uid = some v ∧
       (commentVotePost st uid cid req).2.votes.length = st.votes.length) := by
  have hmain := commentVotePost_valid st uid cid c req v hf hconv hv
  have hv0 : v ≠ 0 := by rcases hv with h | h <;> simp [h]
  have hf' : List.find? (fun d => decide (d.id = cid)) st.comments = some c := hf
  refine ⟨?_, ?_, ?_⟩
  · intro h1
    have he : commentVotePost st uid cid req =
        (.ok (c.cached_score + v) v,
         updateComment { st with votes := ((cid, uid), v) :: st.votes } cid
           (fun d => { d with cached_score := d.cached_score + v })) := by
      rw [hmain]; exact voteApply_fresh st uid cid c v hf h1 hv0
    rw [he]
    refine ⟨rfl, ?_, ?_, rfl⟩
    · show findComment
        (updateComment { st with votes := ((cid, uid), v) :: st.votes } cid
          (fun d => { d with cached_score := d.cached_score + v })) cid = _
      rw [findComment_update _ cid
        (fun d => { d with cached_score := d.cached_score + v }) (fun d => rfl)]
      show (List.find? (fun d => decide (d.id = cid)) st.comments).map _ = _
      rw [hf']
      rfl
    · show voteLookup (((cid, uid), v) :: st.votes) cid uid = some v
      exact voteLookup_cons_self st.votes cid uid v
  · intro h1
    rw [hmain, voteApply_repeat st uid cid c v hf h1]
  · intro h1
    have he : commentVotePost st uid cid req =
        (.ok (c.cached_score + 2 * v) v,
         updateComment { st with votes := voteUpdate st.votes cid uid v } cid
           (fun d => { d with cached_score := d.cached_score + 2 * v })) := by
      rw [hmain]; exact voteApply_switch st uid cid c v hf h1 hv0
    rw [he]
    refine ⟨rfl, ?_, ?_, ?_⟩
    · show findComment
        (updateComment { st with votes := voteUpdate st.votes cid uid v } cid
          (fun d => { d with cached_score := d.cached_score + 2 * v })) cid = _
      rw [findComment_update _ cid
        (fun d => { d with cached_score := d.cached_score + 2 * v }) (fun d => rfl)]
      show (List.find? (fun d => decide (d.id = cid)) st.comments).map _ = _
      rw [hf']
      rfl
    · show voteLookup (voteUpdate st.votes cid uid v) cid uid = some v
      rw [voteLookup_update, h1]
      rfl
    · show (voteUpdate st.votes cid uid v).length = st.votes.length
      exact voteUpdate_length st.votes cid uid v

/-- Fixture: a top-level comment by user 2 on article 10. -/
def fixComment : Comment :=
  { id := 1, article_id := 10, user_id := 2, parent_id := none,
    content := "hello", created_at := 0, updated_at := 0, depth := 0,
    is_edited := false, edited_at := none, is_removed_moderator := false,
    is_deleted_by_user := false, is_approved := true, cached_score := 0 }

/-- Fixture store holding only `fixComment` and its author. -/
def fixStore : Store :=
  { comments := [fixComment], votes := [], users := [⟨2, "alice", false⟩] }

/-- Witness for C1 at a concrete store: a fresh +1 vote on the fixture
comment yields score `0 + 1` and `user_vote = 1`. -/
theorem claim_C1_vote_cast_witness :
    (commentVotePost fixStore 7 1 ⟨some "1", none, ""⟩).1 =
      .ok (fixComment.cached_score + 1) 1 :=
  ((claim_C1_vote_cast fixStore 7 1 fixComment ⟨some "1", none, ""⟩ 1
      (by decide) (by decide) (Or.inr rfl)).1 rfl).1

/-- C2: removing a vote (DELETE) with no existing vote row returns the
current `cached_score` unchanged and `user_vote = 0` without touching any
state; with an existing row of value p it deletes that row, moves
`cached_score` by exactly -p, and returns `user_vote = 0`. -/
theorem claim_C2_vote_remove (st : Store) (uid cid : Nat) (c : Comment)
    (hf : findComment st cid = some c) :
    (voteLookup st.votes cid uid = none →
       commentVoteDelete st uid cid = (.ok c.cached_score 0, st)) ∧
    (∀ p : Int, voteLookup st.votes cid uid = some p →
       (commentVoteDelete st uid cid).1 = .ok (c.cached_score - p) 0 ∧
       findComment (commentVoteDelete st uid cid).2 cid =
         some { c with cached_score := c.cached_score - p } ∧
       voteLookup (commentVoteDelete st uid cid).2.votes cid uid = none) := by
  have hf' : List.find? (fun d => decide (d.id = cid)) st.comments = some c := hf
  constructor
  · intro h1
    simp only [commentVoteDelete, hf, h1]
  · intro p h1
    by_cases hp : p = 0
    · subst hp
      have he : commentVoteDelete st uid cid =
          (.ok c.cached_score 0,
           { st with votes := voteDelete st.votes cid uid }) := by
        simp [commentVoteDelete, hf, h1, findComment, hf']
      rw [he]
      refine ⟨by simp, ?_, ?_⟩
      · show findComment st cid = _
        rw [hf]
        simp
      · show voteLookup (voteDelete st.votes cid uid) cid uid = none
        exact voteLookup_delete st.votes cid uid
    · have hd0 : ¬(-p = 0) := by omega
      have he : commentVoteDelete st uid cid =
          (.ok (c.cached_score + -p) 0,
           updateComment { st with votes := voteDelete st.votes cid uid } cid
             (fun d => { d with cached_score := d.cached_score + -p })) := by
        have hupd := find_map_update st.comments cid
          (fun d => { d with cached_score := d.cached_score + -p }) (fun d => rfl)
        rw [hf'] at hupd
        simp only [commentVoteDelete, hf, h1, if_neg hd0, updateComment,
          findComment, hf', hupd]
        simp
      rw [he]
      refine ⟨by simp [sub_eq_add_neg], ?_, ?_⟩
      · show findComment
          (updateComment { st with votes := voteDelete st.votes cid uid } cid
            (fun d => { d with cached_score := d.cached_score + -p })) cid = _
        rw [findComment_update _ cid
          (fun d => { d with cached_score := d.cached_score + -p }) (fun d => rfl)]
        show (List.find? (fun d => decide (d.id = cid)) st.comments).map _ = _
        rw [hf']
        simp [sub_eq_add_neg]
      · show voteLookup (voteDelete st.votes cid uid) cid uid = none
        exact voteLookup_delete st.votes cid uid

/-- Witness for C2 at a concrete store: DELETE with no vote row is a
complete no-op. -/
theorem claim_C2_vote_remove_witness :
    commentVoteDelete fixStore 7 1 = (.ok fixComment.cached_score 0, fixStore) :=
  (claim_C2_vote_remove fixStore 7 1 fixComment (by decide)).1 rfl

/-- Depth of an iterated reply chain. -/
theorem replyChain_depth (c : Comment) (uid : Nat) (content : String)
    (now : Nat) (n : Nat) :
    (replyChain c uid content now n).depth = c.depth + n := by
  induction n with
  | zero => rfl
  | succ n ih =>
    show (mkReply (replyChain c uid content now n) uid content _ now).depth = _
    simp [mkReply, commentSave, ih]
    omega

/-- C6: a created comment has depth 0 iff it has no parent; a reply's depth
is its parent's depth plus 1 with no upper bound (an 11-deep chain stores
depth 11, past the display cap `MAX_DEPTH = 5`); a reply's `article_id`
equals its parent's. -/
theorem claim_C6_true_depth (aid uid uid2 : Nat) (content c2 : String)
    (newId now : Nat) (p c0 : Comment) (n : Nat) :
    (mkTopLevel aid uid content newId now).depth = 0 ∧
    (mkTopLevel aid uid content newId now).parent_id = none ∧
    (mkReply p uid2 c2 newId now).depth = p.depth + 1 ∧
    (mkReply p uid2 c2 newId now).parent_id = some p.id ∧
    (mkReply p uid2 c2 newId now).article_id = p.article_id ∧
    ((mkReply p uid2 c2 newId now).depth = 0 ↔
      (mkReply p uid2 c2 newId now).parent_id = none) ∧
    (replyChain c0 uid content now n).depth = c0.depth + n ∧
    (replyChain (mkTopLevel aid uid content newId now) uid content now 11).depth
      = 11 ∧
    11 > commentMaxDepth := by
  refine ⟨rfl, rfl, rfl, rfl, rfl, ?_, replyChain_depth c0 uid content now n,
    ?_, by decide⟩
  · simp [mkReply, commentSave]
  · rw [replyChain_depth]
    rfl

/-- A staff viewer who is not the author. -/
def staffViewer : Viewer := { is_authenticated := true, id := 99, is_staff := true }

/-- C4 counterexample: a staff viewer who is not the author gets
`can_delete = false`, though the claim demands `author OR staff`. -/
theorem claim_C4_counterexample :
    getField (serializeComment fixStore staffViewer fixComment) "can_delete" =
      some (.jb false) ∧
    staffViewer.is_staff = true ∧
    ¬ fixComment.user_id = staffViewer.id := by decide

/-- C4 amended: `can_delete` is true iff the viewer is authenticated and is
the comment's author; being staff does not set it (staff act through the
separate delete/moderation endpoints). -/
theorem claim_C4_can_delete (st : Store) (viewer : Viewer) (c : Comment) :
    getField (serializeComment st viewer c) "can_delete" = some (.jb true) ↔
      viewer.is_authenticated = true ∧ c.user_id = viewer.id := by
  simp [serializeComment, getField, List.find?]

/-- C5 counterexample: for a comment that is neither author-deleted nor
moderator-removed, the serialized content is the *stripped* stored content,
not the stored content: stored `" hi "` serializes as `"hi"`. -/
theorem claim_C5_counterexample :
    getField (serializeComment fixStore staffViewer
        { fixComment with content := " hi " }) "content" = some (.js "hi") ∧
    ({ fixComment with content := " hi " } : Comment).is_deleted_by_user = false ∧
    ({ fixComment with content := " hi " } : Comment).is_removed_moderator = false ∧
    ¬ (JVal.js "hi" = JVal.js " hi ") := by decide

/-- C5 amended: serialization applies the fixed precedence — author-deleted
gives exactly `"[deleted]"` regardless of viewer and of the
moderator-removed flag, else moderator-removed gives exactly
`"[removed by moderator]"`, otherwise the stored content stripped of
leading/trailing whitespace; in all cases `cached_score` and the viewer's
own vote are returned verbatim, never tombstoned. -/
theorem claim_C5_tombstone (st : Store) (viewer : Viewer) (c : Comment) :
    getField (serializeComment st viewer c) "content" =
      some (.js (if c.is_deleted_by_user then "[deleted]"
                 else if c.is_removed_moderator then "[removed by moderator]"
                 else pyStrip c.content)) ∧
    getField (serializeComment st viewer c) "score" =
      some (.ji c.cached_score) ∧
    getField (serializeComment st viewer c) "user_vote" =
      some (.ji (if viewer.is_authenticated then
                   (voteLookup st.votes c.id viewer.id).getD 0
                 else 0)) := by
  refine ⟨?_, ?_, ?_⟩ <;> simp [serializeComment, getField, List.find?]

/-- An unauthenticated viewer. -/
def anonViewer : Viewer := { is_authenticated := false, id := 0, is_staff := false }

/-- A stored reply to `fixComment` (id 1). -/
def replyTo1 (i : Nat) : Comment :=
  { id := i, article_id := 10, user_id := 2, parent_id := some 1,
    content := "r", created_at := i, updated_at := i, depth := 1,
    is_edited := false, edited_at := none, is_removed_moderator := false,
    is_deleted_by_user := false, is_approved := true, cached_score := 0 }

/-- A store in which `fixComment` has 8 stored direct replies. -/
def store8 : Store :=
  { comments := fixComment :: (List.range 8).map (fun i => replyTo1 (i + 2)),
    votes := [], users := [⟨2, "alice", false⟩] }

/-- The exact key list the serializer emits. -/
def serializedKeys : List String :=
  ["id", "article_id", "user", "parent_id", "parent_username", "content",
   "created_at", "updated_at", "edited_at", "is_edited",
   "is_removed_moderator", "is_deleted_by_user", "is_approved", "score",
   "user_vote", "depth", "can_edit", "can_delete", "can_moderate"]

/-- C3: the serializer emits exactly `serializedKeys` (plus `replies` in the
tree assembler) — no `reply_count` field at all, even for a parent with 8
stored direct replies, although the repository's own tests
(`tests.py`, `test_reply_pagination`) assert `reply_count == 8`. -/
theorem claim_C3_reply_count :
    (∀ (st : Store) (viewer : Viewer) (c : Comment),
       (serializeComment st viewer c).map Prod.fst = serializedKeys) ∧
    (∀ (st : Store) (viewer : Viewer) (fuel : Nat) (c : Comment),
       (serializeWithChildren st viewer (fuel + 1) c).map Prod.fst =
         serializedKeys ++ ["replies"]) ∧
    (childrenOf store8 1).length = 8 ∧
    "reply_count" ∉ (serializeWithChildren store8 anonViewer 20 fixComment).map
      Prod.fst := by
  refine ⟨fun st viewer c => rfl, fun st viewer fuel c => rfl, by decide, ?_⟩
  decide

/-- A store whose only comment is moderator-removed (author: user 2). -/
def remStore : Store :=
  { comments := [{ fixComment with is_removed_moderator := true }],
    votes := [], users := [⟨2, "alice", false⟩] }

/-- A store whose only comment is author-deleted but not removed. -/
def delStore : Store :=
  { comments := [{ fixComment with is_deleted_by_user := true }],
    votes := [], users := [⟨2, "alice", false⟩] }

/-- C7 counterexample: editing a moderator-removed comment as its author
fails with status 400 (a validation-style error), not 403 Forbidden as the
claim states; the store is untouched. -/
theorem claim_C7_counterexample :
    (commentEdit remStore 2 1 (some "new") 5).1 =
      .err 400 "Cannot edit a moderated-removed comment" ∧
    ¬ (commentEdit remStore 2 1 (some "new") 5).1 = .err 403 "Forbidden" ∧
    (commentEdit remStore 2 1 (some "new") 5).2 = remStore := by decide

/-- C7 amended: edit fails with 403 Forbidden when the caller is not the
author, fails with a 400 validation error when the comment is
moderator-removed, re-validates stripped content (empty or over 5000 chars
rejected with 400, store untouched), and otherwise updates `content`,
`is_edited`, `edited_at` (and the `auto_now` `updated_at`) — regardless of
the author-deleted flag, so a self-deleted comment is still editable by its
author. -/
theorem claim_C7_edit (st : Store) (uid cid : Nat) (c : Comment)
    (ci : Option String) (now : Nat)
    (hf : findComment st cid = some c) :
    (¬ c.user_id = uid →
       commentEdit st uid cid ci now = (.err 403 "Forbidden", st)) ∧
    (c.user_id = uid → c.is_removed_moderator = true →
       commentEdit st uid cid ci now =
         (.err 400 "Cannot edit a moderated-removed comment", st)) ∧
    (c.user_id = uid → c.is_removed_moderator = false →
       pyStrip (ci.getD "") = "" →
       commentEdit st uid cid ci now = (.err 400 "Content is required", st)) ∧
    (c.user_id = uid → c.is_removed_moderator = false →
       ¬ pyStrip (ci.getD "") = "" →
       (pyStrip (ci.getD "")).length > MAX_COMMENT_LENGTH →
       commentEdit st uid cid ci now =
         (.err 400 "Content exceeds 5000 chars", st)) ∧
    (c.user_id = uid → c.is_removed_moderator = false →
       ¬ pyStrip (ci.getD "") = "" →
       ¬ (pyStrip (ci.getD "")).length > MAX_COMMENT_LENGTH →
       findComment (commentEdit st uid cid ci now).2 cid =
         some { c with content := pyStrip (ci.getD ""), is_edited := true,
                       edited_at := some now, updated_at := now } ∧
       ∃ out, (commentEdit st uid cid ci now).1 = .ok out) := by
  have hf' : List.find? (fun d => decide (d.id = cid)) st.comments = some c := hf
  refine ⟨?_, ?_, ?_, ?_, ?_⟩
  · intro h
    simp only [commentEdit, hf, if_pos h]
  · intro h1 h2
    simp only [commentEdit, hf, if_neg (not_not_intro h1), h2, if_pos rfl]
    simp
  · intro h1 h2 h3
    simp only [commentEdit, hf, if_neg (not_not_intro h1), h2, h3]
    simp
  · intro h1 h2 h3 h4
    simp only [commentEdit, hf, if_neg (not_not_intro h1), h2, if_neg h3,
      if_pos h4]
    simp [h3, h4]
  · intro h1 h2 h3 h4
    have hupd := find_map_update st.comments cid
      (fun d => { d with content := pyStrip (ci.getD ""), is_edited := true,
                         edited_at := some now, updated_at := now })
      (fun d => rfl)
    rw [hf'] at hupd
    have he : commentEdit st uid cid ci now =
        (.ok (serializeComment
            (updateComment st cid
              (fun d => { d with content := pyStrip (ci.getD ""),
                                 is_edited := true, edited_at := some now,
                                 updated_at := now }))
            { is_authenticated := true, id := uid, is_staff := false }
            { c with content := pyStrip (ci.getD ""), is_edited := true,
                     edited_at := some now, updated_at := now }),
         updateComment st cid
           (fun d => { d with content := pyStrip (ci.getD ""),
                              is_edited := true, edited_at := some now,
                              updated_at := now })) := by
      simp only [commentEdit, hf, hf', if_neg (not_not_intro h1), h2,
        if_neg h3, if_neg h4, updateComment, findComment, hupd]
      simp [hf', h1, h2, h3, h4]
    rw [he]
    refine ⟨?_, ⟨_, rfl⟩⟩
    show findComment (updateComment st cid
      (fun d => { d with content := pyStrip (ci.getD ""), is_edited := true,
                         edited_at := some now, updated_at := now })) cid = _
    rw [findComment_update _ cid
      (fun d => { d with content := pyStrip (ci.getD ""), is_edited := true,
                         edited_at := some now, updated_at := now })
      (fun d => rfl)]
    show (List.find? (fun d => decide (d.id = cid)) st.comments).map _ = _
    rw [hf']
    rfl

/-- Witness for C7: the author edits an author-deleted (not removed)
comment with content `" new "`; it succeeds and stores the stripped
content. -/
theorem claim_C7_edit_witness :
    findComment (commentEdit delStore 2 1 (some " new ") 9).2 1 =
      some { fixComment with
               is_deleted_by_user := true, content := "new",
               is_edited := true, edited_at := some 9, updated_at := 9 } := by
  have h := (claim_C7_edit delStore 2 1
      { fixComment with is_deleted_by_user := true } (some " new ") 9
      (by decide)).2.2.2.2 rfl rfl (by decide) (by decide)
  simpa using h.1

/-- C9 counterexample: deleting an already-deleted comment does NOT leave
the state unchanged — the save refreshes the `auto_now` field `updated_at`
(0 becomes 9 here). -/
theorem claim_C9_counterexample :
    ¬ (commentDelete delStore ⟨true, 2, false⟩ 1 9).2 = delStore ∧
    findComment (commentDelete delStore ⟨true, 2, false⟩ 1 9).2 1 =
      some { fixComment with is_deleted_by_user := true, updated_at := 9 } := by
  decide

/-- C9 amended: an authorized delete (author or staff) sets
`is_deleted_by_user` and refreshes `updated_at`, leaving
`is_removed_moderator`, `is_approved`, `content`, `cached_score`, `depth`,
`parent_id` and the vote/user tables unchanged; a staff non-author delete
tombstones as `"[deleted]"`; repeating the delete changes nothing except
`updated_at`. -/
theorem claim_C9_delete (st : Store) (viewer : Viewer) (cid : Nat)
    (c : Comment) (now : Nat)
    (hf : findComment st cid = some c)
    (hauth : c.user_id = viewer.id ∨ viewer.is_staff = true) :
    findComment (commentDelete st viewer cid now).2 cid =
      some { c with is_deleted_by_user := true, updated_at := now } ∧
    (commentDelete st viewer cid now).2.votes = st.votes ∧
    (commentDelete st viewer cid now).2.users = st.users ∧
    getField (serializeComment (commentDelete st viewer cid now).2 viewer
        { c with is_deleted_by_user := true, updated_at := now }) "content" =
      some (.js "[deleted]") ∧
    (c.is_deleted_by_user = true →
       findComment (commentDelete st viewer cid now).2 cid =
         some { c with updated_at := now }) := by
  have hf' : List.find? (fun d => decide (d.id = cid)) st.comments = some c := hf
  have hcond : ¬(¬ c.user_id = viewer.id ∧ ¬ viewer.is_staff = true) := by
    rcases hauth with h | h <;> simp [h]
  have hupd := find_map_update st.comments cid
    (fun d => { d with is_deleted_by_user := true, updated_at := now })
    (fun d => rfl)
  rw [hf'] at hupd
  have he : commentDelete st viewer cid now =
      (.ok (serializeComment
          (updateComment st cid
            (fun d => { d with is_deleted_by_user := true, updated_at := now }))
          viewer { c with is_deleted_by_user := true, updated_at := now }),
       updateComment st cid
         (fun d => { d with is_deleted_by_user := true, updated_at := now })) := by
    simp only [commentDelete, hf, hf', if_neg hcond, updateComment,
      findComment, hupd]
    simp [hcond]
  rw [he]
  have hfind : findComment (updateComment st cid
      (fun d => { d with is_deleted_by_user := true, updated_at := now })) cid =
      some { c with is_deleted_by_user := true, updated_at := now } := by
    rw [findComment_update _ cid
      (fun d => { d with is_deleted_by_user := true, updated_at := now })
      (fun d => rfl)]
    show (List.find? (fun d => decide (d.id = cid)) st.comments).map _ = _
    rw [hf']
    rfl
  refine ⟨hfind, rfl, rfl, ?_, ?_⟩
  · simp [serializeComment, getField, List.find?]
  · intro hdel
    rw [hfind]
    simp [hdel]

/-- Witness for C9: a staff member deletes another user's comment; only the
deletion flag and `updated_at` change and the tombstone is `"[deleted]"`. -/
theorem claim_C9_delete_witness :
    findComment (commentDelete fixStore staffViewer 1 9).2 1 =
      some { fixComment with is_deleted_by_user := true, updated_at := 9 } ∧
    getField (serializeComment (commentDelete fixStore staffViewer 1 9).2
        staffViewer
        { fixComment with is_deleted_by_user := true, updated_at := 9 })
      "content" = some (.js "[deleted]") := by
  have h := claim_C9_delete fixStore staffViewer 1 fixComment 9 (by decide)
    (Or.inr rfl)
  exact ⟨h.1, h.2.2.2.1⟩

/-- Single-step behaviour of `comment_moderate` under a staff viewer. -/
theorem commentModerate_eq (st : Store) (viewer : Viewer) (cid : Nat)
    (c : Comment) (remove : Option String) (now : Nat)
    (hstaff : viewer.is_staff = true)
    (hf : findComment st cid = some c) :
    commentModerate st viewer cid remove now =
      (.ok (serializeComment
          (updateComment st cid (fun d =>
            { d with
                is_removed_moderator :=
                  (pyLower (pyStrOfOpt remove) ∈ ["1", "true", "on", "yes"] : Bool),
                updated_at := now }))
          viewer
          { c with
              is_removed_moderator :=
                (pyLower (pyStrOfOpt remove) ∈ ["1", "true", "on", "yes"] : Bool),
              updated_at := now }),
       updateComment st cid (fun d =>
         { d with
             is_removed_moderator :=
               (pyLower (pyStrOfOpt remove) ∈ ["1", "true", "on", "yes"] : Bool),
             updated_at := now })) := by
  have hf' : List.find? (fun d => decide (d.id = cid)) st.comments = some c := hf
  have hupd := find_map_update st.comments cid
    (fun d =>
      { d with
          is_removed_moderator :=
            (pyLower (pyStrOfOpt remove) ∈ ["1", "true", "on", "yes"] : Bool),
          updated_at := now })
    (fun d => rfl)
  rw [hf'] at hupd
  simp only [commentModerate, hf, hf', if_neg (not_not_intro hstaff),
    updateComment, findComment, hupd]
  simp [hstaff]

/-- Fetched row after one moderation step. -/
theorem commentModerate_find (st : Store) (viewer : Viewer) (cid : Nat)
    (c : Comment) (remove : Option String) (now : Nat)
    (hstaff : viewer.is_staff = true)
    (hf : findComment st cid = some c) :
    findComment (commentModerate st viewer cid remove now).2 cid =
      some { c with
               is_removed_moderator :=
                 (pyLower (pyStrOfOpt remove) ∈ ["1", "true", "on", "yes"] : Bool),
               updated_at := now } := by
  rw [commentModerate_eq st viewer cid c remove now hstaff hf]
  show findComment (updateComment st cid _) cid = _
  rw [findComment_update _ cid
    (fun d =>
      { d with
          is_removed_moderator :=
            (pyLower (pyStrOfOpt remove) ∈ ["1", "true", "on", "yes"] : Bool),
          updated_at := now })
    (fun d => rfl)]
  show (List.find? (fun d => decide (d.id = cid)) st.comments).map _ = _
  have hf' : List.find? (fun d => decide (d.id = cid)) st.comments = some c := hf
  rw [hf']
  rfl

/-- C10 counterexample: re-moderating an already-removed comment with
`remove="yes"` does NOT leave the state unchanged and does not write only
`is_removed_moderator` — the save refreshes `updated_at` (0 becomes 7). -/
theorem claim_C10_counterexample :
    ¬ (commentModerate remStore staffViewer 1 (some "yes") 7).2 = remStore ∧
    findComment (commentModerate remStore staffViewer 1 (some "yes") 7).2 1 =
      some { fixComment with is_removed_moderator := true, updated_at := 7 } := by
  decide

/-- C10 amended: moderation decides remove-versus-restore by lowercasing
`str(remove)` and testing membership in `{"1", "true", "on", "yes"}` — a
missing parameter (`str(None) = "None"`) or `"Remove"` restores; it writes
only `is_removed_moderator` plus the `auto_now` `updated_at`, and repeating
it with the same parameter changes nothing except `updated_at`. -/
theorem claim_C10_moderate (st : Store) (viewer : Viewer) (cid : Nat)
    (c : Comment) (remove : Option String) (now now2 : Nat)
    (hstaff : viewer.is_staff = true)
    (hf : findComment st cid = some c) :
    findComment (commentModerate st viewer cid remove now).2 cid =
      some { c with
               is_removed_moderator :=
                 (pyLower (pyStrOfOpt remove) ∈ ["1", "true", "on", "yes"] : Bool),
               updated_at := now } ∧
    (commentModerate st viewer cid remove now).2.votes = st.votes ∧
    (commentModerate st viewer cid remove now).2.users = st.users ∧
    (remove = none →
       findComment (commentModerate st viewer cid remove now).2 cid =
         some { c with is_removed_moderator := false, updated_at := now }) ∧
    (remove = some "Remove" →
       findComment (commentModerate st viewer cid remove now).2 cid =
         some { c with is_removed_moderator := false, updated_at := now }) ∧
    findComment (commentModerate (commentModerate st viewer cid remove now).2
        viewer cid remove now2).2 cid =
      some { c with
               is_removed_moderator :=
                 (pyLower (pyStrOfOpt remove) ∈ ["1", "true", "on", "yes"] : Bool),
               updated_at := now2 } := by
  have h1 := commentModerate_find st viewer cid c remove now hstaff hf
  refine ⟨h1, ?_, ?_, ?_, ?_, ?_⟩
  · rw [commentModerate_eq st viewer cid c remove now hstaff hf]
    rfl
  · rw [commentModerate_eq st viewer cid c remove now hstaff hf]
    rfl
  · intro h; subst h; simpa using h1
  · intro h; subst h; simpa using h1
  · have h2 := commentModerate_find
      (commentModerate st viewer cid remove now).2 viewer cid _ remove now2
      hstaff h1
    simpa using h2

/-- Witness for C10: moderating with a missing `remove` parameter restores
the fixture comment. -/
theorem claim_C10_moderate_witness :
    findComment (commentModerate fixStore staffViewer 1 none 3).2 1 =
      some { fixComment with is_removed_moderator := false, updated_at := 3 } := by
  have h := claim_C10_moderate fixStore staffViewer 1 fixComment none 3 4
    rfl (by decide)
  exact h.2.2.2.1 rfl

/-- The fixture store after user 7 upvotes comment 1. -/
def fixStoreUp : Store :=
  { comments := [{ fixComment with cached_score := 1 }],
    votes := [((1, 7), 1)], users := [⟨2, "alice", false⟩] }

/-- C8 counterexample: the raw body `"value: 10"` carries the value 10, is
found by neither `parse_qs` nor `json.loads`, but the regex fallback
extracts `"1"` from it, so the vote endpoint ACCEPTS it as +1 and mutates
the store — the claim requires any value other than exactly ±1 to be
rejected with no state change. -/
theorem claim_C8_counterexample :
    parseQsValue "value: 10" = none ∧
    jsonLoads "value: 10" = none ∧
    regexValueSearch ("value: 10").data = some "1" ∧
    commentVotePost fixStore 7 1 ⟨none, none, "value: 10"⟩ = (.ok 1 1, fixStoreUp) ∧
    ¬ (commentVotePost fixStore 7 1 ⟨none, none, "value: 10"⟩).2 = fixStore := by
  decide

/-- C8 amended: whenever the tolerantly parsed raw value fails Python
`int()` conversion or converts to anything other than exactly -1 or +1, the
endpoint rejects with a 400 validation error and the store — vote ledger
and `cached_score` included — is returned unchanged; the caveat is that the
raw-body regex fallback may itself extract ±1 from a body carrying a
different value (see the counterexample). -/
theorem claim_C8_vote_validation (st : Store) (uid cid : Nat) (c : Comment)
    (req : VoteReq)
    (hf : findComment st cid = some c)
    (hbad : ∀ v : Int, (parse_value req).bind pyIntOfJVal = some v →
      ¬(v = -1 ∨ v = 1)) :
    commentVotePost st uid cid req = (.err 400 "value must be -1 or 1", st) := by
  cases hconv : (parse_value req).bind pyIntOfJVal with
  | none => simp only [commentVotePost, hf, hconv]
  | some v =>
    have hnv := hbad v hconv
    simp only [commentVotePost, hf, hconv, if_neg hnv]

/-- Witness for C8: a form-field vote of `"7"` is rejected and the store is
untouched. -/
theorem claim_C8_vote_validation_witness :
    commentVotePost fixStore 7 1 ⟨some "7", none, ""⟩ =
      (.err 400 "value must be -1 or 1", fixStore) :=
  claim_C8_vote_validation fixStore 7 1 fixComment ⟨some "7", none, ""⟩
    (by decide)
    (fun v hv => by
      have h : some (7 : Int) = some v := hv
      cases h
      decide)


end Claims

end NewsAgg
